import Mathlib

/-!
# Verification of the KoLLaM interactive kolam canvas editor

Shallow embedding of the drawing-page editor (the `DrawPage` React component):
its state, the pointer-event handlers (`startDrawing`, `draw`, `stopDrawing`),
the toolbar actions (`undoLastShape`, `clearCanvas`, tool selection), the grid
snapping (`snapToGrid`), hit testing (`isPointInShape`), the redraw pipeline
(`redrawCanvas`, modelled as a list of draw commands), and the asynchronous
evaluator submission (`evaluateKolam`, modelled as a function of the external
outcomes).  Canvas pixel coordinates (JS `number`s) are modelled as rationals.
-/

namespace KoLLaM

/-- The closed set of shape kinds: two glyphs and the freehand tool. -/
inductive ShapeType where
  | kul
  | lu
  | freehand
deriving DecidableEq, Repr

/-- A placed glyph shape: kind, center position, edge size, color. -/
structure Shape where
  type : ShapeType
  x : ℚ
  y : ℚ
  size : ℚ
  color : String
deriving DecidableEq, Repr

/-- Status of the most recent evaluator submission. -/
inductive EvalStatus where
  | idle
  | loading
  | success
  | error
deriving DecidableEq, Repr

/-- The editor's state: the `useState` fields of the `DrawPage` component. -/
structure EditorState where
  isDrawing : Bool
  lastPosition : ℚ × ℚ
  selectedShape : ShapeType
  shapes : List Shape
  brushSize : ℚ
  brushColor : String
  draggedShapeIndex : Option Nat
  dragOffset : ℚ × ℚ
  originalShapePosition : Option (ℚ × ℚ)
  backgroundImage : Option String
  showGrid : Bool
  evaluationStatus : EvalStatus
deriving DecidableEq, Repr

/-- The grid cell edge length, a component-level constant (`gridSize = 70`). -/
def gridSize : ℚ := 70

/-- The initial editor state (the `useState` initial values). -/
def initState : EditorState where
  isDrawing := false
  lastPosition := (0, 0)
  selectedShape := .freehand
  shapes := []
  brushSize := 2
  brushColor := "#000000"
  draggedShapeIndex := none
  dragOffset := (0, 0)
  originalShapePosition := none
  backgroundImage := none
  showGrid := true
  evaluationStatus := .idle

/-- `snapToGrid(coord, gridSize) = Math.floor(coord / gridSize) * gridSize + gridSize / 2`. -/
def snapToGrid (coord g : ℚ) : ℚ :=
  (⌊coord / g⌋ : ℚ) * g + g / 2

/-- `isPointInShape`: bounding-box hit test, boundary inclusive. -/
def isPointInShape (px py : ℚ) (shape : Shape) : Bool :=
  decide (px ≥ shape.x - shape.size / 2) && decide (px ≤ shape.x + shape.size / 2) &&
  decide (py ≥ shape.y - shape.size / 2) && decide (py ≤ shape.y + shape.size / 2)

/-- The `startDrawing` hit-search loop: scan indices from `shapes.length - 1`
down to `0` and return the first (i.e. topmost) index whose shape contains the
point, together with that shape.  The recursion searches the tail (higher
indices) before the head, matching the downward `for` loop. -/
def lastHit (x y : ℚ) : List Shape → Option (Nat × Shape)
  | [] => none
  | sh :: rest =>
    match lastHit x y rest with
    | some (j, t) => some (j + 1, t)
    | none => if isPointInShape x y sh then some (0, sh) else none

/-- The JS `Array.prototype.some` with an `(element, index)` callback, used by
`stopDrawing`'s occupancy check; `k` is the index of the list head. -/
def someWithIndex (p : Nat → Shape → Bool) : Nat → List Shape → Bool
  | _, [] => false
  | k, sh :: rest => p k sh || someWithIndex p (k + 1) rest

/-- `startDrawing` (the canvas `onMouseDown` handler), given the pointer's
canvas coordinates.  Freehand: begin a stroke.  Otherwise: start a drag on the
topmost shape containing the pointer, or else place a new snapped shape if the
target cell is unoccupied. -/
def startDrawing (x y : ℚ) (s : EditorState) : EditorState :=
  if s.selectedShape = .freehand then
    { s with isDrawing := true, lastPosition := (x, y) }
  else
    match lastHit x y s.shapes with
    | some (i, sh) =>
      { s with
        draggedShapeIndex := some i
        isDrawing := true
        originalShapePosition := some (sh.x, sh.y)
        dragOffset := (x - sh.x, y - sh.y) }
    | none =>
      let snappedX := snapToGrid x gridSize
      let snappedY := snapToGrid y gridSize
      let isOccupied := s.shapes.any fun t => decide (t.x = snappedX) && decide (t.y = snappedY)
      if isOccupied then s
      else
        { s with
          shapes := s.shapes ++
            [{ type := s.selectedShape
               x := snappedX
               y := snappedY
               size := gridSize * 0.8
               color := s.brushColor }] }

/-- `draw` (the canvas `onMouseMove` handler).  While a drag is active, move
the dragged shape to the unsnapped pointer position minus the grab offset;
while a freehand stroke is active, paint a segment (a pixel effect) and record
the new last position.  No-op when not drawing. -/
def draw (x y : ℚ) (s : EditorState) : EditorState :=
  if s.isDrawing = false then s
  else
    match s.draggedShapeIndex with
    | some i =>
      match s.shapes.get? i with
      | some sh =>
        { s with shapes := s.shapes.set i { sh with x := x - s.dragOffset.1, y := y - s.dragOffset.2 } }
      | none => s
    | none =>
      if s.selectedShape = .freehand then { s with lastPosition := (x, y) }
      else s

/-- `stopDrawing` (the canvas `onMouseUp` / `onMouseLeave` handler).  If a drag
session is active, snap the dragged shape's position; if another shape already
sits at the snapped cell center, revert to the pre-drag position, otherwise
commit the snapped position.  Always clear the drawing flag and the drag
session.  (When the dragged index is out of bounds the JS code throws before
reaching any state update, leaving the state unchanged.) -/
def stopDrawing (s : EditorState) : EditorState :=
  match s.draggedShapeIndex, s.originalShapePosition with
  | some i, some orig =>
    match s.shapes.get? i with
    | some sh =>
      let snappedX := snapToGrid sh.x gridSize
      let snappedY := snapToGrid sh.y gridSize
      let isOccupied := someWithIndex
        (fun j t => decide (j ≠ i) && decide (t.x = snappedX) && decide (t.y = snappedY)) 0 s.shapes
      let sh' :=
        if isOccupied then { sh with x := orig.1, y := orig.2 }
        else { sh with x := snappedX, y := snappedY }
      { s with
        shapes := s.shapes.set i sh'
        isDrawing := false
        draggedShapeIndex := none
        originalShapePosition := none }
    | none => s
  | _, _ =>
    { s with isDrawing := false, draggedShapeIndex := none, originalShapePosition := none }

/-- `clearCanvas`: empty the shape sequence, drop the background image, restore
grid visibility. -/
def clearCanvas (s : EditorState) : EditorState :=
  { s with shapes := [], backgroundImage := none, showGrid := true }

/-- `undoLastShape`: drop the last-appended shape (`slice(0, -1)`); no-op when
the sequence is empty. -/
def undoLastShape (s : EditorState) : EditorState :=
  if s.shapes.length > 0 then { s with shapes := s.shapes.dropLast } else s

/-- Selecting a tool in the toolbar (`setSelectedShape`). -/
def selectTool (k : ShapeType) (s : EditorState) : EditorState :=
  { s with selectedShape := k }

/-! ## The evaluator submission (`evaluateKolam`)

The submission is asynchronous network I/O; it is embedded as a pair of state
transitions parameterised by the externally determined outcomes: whether
`canvas.toBlob` produced a blob, and what the `fetch` call did. -/

/-- Outcome of the `fetch` to the evaluator endpoint: an HTTP response with a
status code, or a thrown network error. -/
inductive FetchOutcome where
  | response (status : Nat)
  | networkError
deriving DecidableEq, Repr

/-- `Response.ok` per the fetch specification: status in the range 200–299. -/
def responseOk (status : Nat) : Bool :=
  decide (200 ≤ status) && decide (status < 300)

/-- Start of `evaluateKolam`: `setEvaluationStatus('loading')` before the
export/request begins. -/
def evaluateKolamStart (s : EditorState) : EditorState :=
  { s with evaluationStatus := .loading }

/-- Completion of `evaluateKolam`: the `toBlob` callback.  A missing blob sets
status to error; otherwise a response with `ok` set gives success, and any
non-ok response or network error gives error.  Nothing else in the state is
touched. -/
def evaluateKolamComplete (s : EditorState) (blob : Option String)
    (outcome : FetchOutcome) : EditorState :=
  match blob with
  | none => { s with evaluationStatus := .error }
  | some _ =>
    match outcome with
    | .response st =>
      if responseOk st then { s with evaluationStatus := .success }
      else { s with evaluationStatus := .error }
    | .networkError => { s with evaluationStatus := .error }

/-- The whole submission, from click to settled status. -/
def evaluateKolam (s : EditorState) (blob : Option String)
    (outcome : FetchOutcome) : EditorState :=
  evaluateKolamComplete (evaluateKolamStart s) blob outcome

/-- The `Evaluate Kolam` button's `disabled` prop:
`evaluationStatus === 'loading'`. -/
def submitDisabled (s : EditorState) : Bool :=
  s.evaluationStatus = .loading

/-! ## The redraw pipeline (`redrawCanvas`)

Canvas painting is embedded as a list of draw commands: what `redrawCanvas`
paints, in order. -/

/-- One painting step of a full redraw. -/
inductive DrawCmd where
  | clearRect
  | background
  | grid
  | svgShape (t : ShapeType) (x y size : ℚ) (color : String)
deriving DecidableEq, Repr

/-- `drawShape`: the `switch` on the shape kind draws `kul` and `lu` glyphs via
`drawSVGShape` and has no case for `freehand`, which therefore paints
nothing. -/
def drawShape (sh : Shape) : List DrawCmd :=
  match sh.type with
  | .kul => [.svgShape .kul sh.x sh.y sh.size sh.color]
  | .lu => [.svgShape .lu sh.x sh.y sh.size sh.color]
  | .freehand => []

/-- `redrawCanvas`: clear, background image (if set), grid (if visible), every
shape in sequence order except the dragged one, then the dragged shape last. -/
def redrawCanvas (s : EditorState) : List DrawCmd :=
  [.clearRect]
    ++ (match s.backgroundImage with
        | some _ => [.background]
        | none => [])
    ++ (if s.showGrid then [.grid] else [])
    ++ (s.shapes.enum.filterMap fun p =>
          if some p.1 = s.draggedShapeIndex then none else some (drawShape p.2)).flatten
    ++ (match s.draggedShapeIndex with
        | some i =>
          match s.shapes.get? i with
          | some sh => drawShape sh
          | none => []
        | none => [])

/-! ## The editor as a transition system -/

/-- The editor operations driven by user events. -/
inductive Op where
  | selectTool (k : ShapeType)
  | pointerDown (x y : ℚ)
  | pointerMove (x y : ℚ)
  | pointerUp
  | undo
  | clear
deriving DecidableEq, Repr

/-- Apply one operation: dispatch to the corresponding handler. -/
def applyOp (op : Op) (s : EditorState) : EditorState :=
  match op with
  | .selectTool k => selectTool k s
  | .pointerDown x y => startDrawing x y s
  | .pointerMove x y => draw x y s
  | .pointerUp => stopDrawing s
  | .undo => undoLastShape s
  | .clear => clearCanvas s

/-- Apply a sequence of operations from left to right. -/
def applyOps (ops : List Op) (s : EditorState) : EditorState :=
  ops.foldl (fun st op => applyOp op st) s

/-- Whether an operation is well formed in a state: the browser event model
delivers `mousedown` on the canvas, and clicks on the Undo / Clear buttons,
only while no canvas drag is in progress (a drag session ends with the
`mouseup` or `mouseleave` that must precede them).  Pointer moves, pointer
releases and tool selection are always possible. -/
def wfOk (s : EditorState) : Op → Prop
  | .pointerDown _ _ => s.draggedShapeIndex = none
  | .undo => s.draggedShapeIndex = none
  | .clear => s.draggedShapeIndex = none
  | _ => True

/-- States reachable from the initial state by well-formed event sequences. -/
inductive WfReachable : EditorState → Prop where
  | init : WfReachable initState
  | step {s : EditorState} (op : Op) : WfReachable s → wfOk s op → WfReachable (applyOp op s)

/-- A drag session is active: `draggedShapeIndex` is set. -/
def dragSessionActive (s : EditorState) : Prop :=
  s.draggedShapeIndex ≠ none

/-- A freehand stroke is active: the drawing flag is set, no drag session owns
it, and the freehand tool is selected (so the next pointer move paints a
segment). -/
def freehandStrokeActive (s : EditorState) : Prop :=
  s.isDrawing = true ∧ s.draggedShapeIndex = none ∧ s.selectedShape = .freehand

/-- All shapes in a list sit at pairwise-distinct positions. -/
def distinctPos (l : List Shape) : Prop :=
  ∀ j k : Fin l.length, j ≠ k → ((l.get j).x, (l.get j).y) ≠ ((l.get k).x, (l.get k).y)

/-! ## Helper lemmas -/

/-- A successful hit search returns an in-range index holding the returned
shape. -/
theorem lastHit_some_spec {x y : ℚ} :
    ∀ {l : List Shape} {i : Nat} {sh : Shape}, lastHit x y l = some (i, sh) →
      ∃ h : i < l.length, l.get ⟨i, h⟩ = sh := by
  intro l
  induction l with
  | nil => intro i sh h; simp [lastHit] at h
  | cons a rest ih =>
    intro i sh h
    rw [lastHit] at h
    cases hr : lastHit x y rest with
    | some p =>
      obtain ⟨j, t⟩ := p
      rw [hr] at h
      simp only [Option.some.injEq, Prod.mk.injEq] at h
      obtain ⟨hi, hsh⟩ := h
      obtain ⟨hj, hget⟩ := ih hr
      subst hi hsh
      exact ⟨by simpa using Nat.succ_lt_succ hj, by simpa using hget⟩
    | none =>
      rw [hr] at h
      by_cases hp : isPointInShape x y a = true
      · rw [if_pos hp] at h
        simp only [Option.some.injEq, Prod.mk.injEq] at h
        obtain ⟨hi, hsh⟩ := h
        subst hi hsh
        exact ⟨by simp, rfl⟩
      · rw [if_neg hp] at h
        exact absurd h (by simp)

/-- No hit means no shape in the list contains the point. -/
theorem lastHit_none_iff {x y : ℚ} :
    ∀ {l : List Shape}, lastHit x y l = none ↔ ∀ sh ∈ l, isPointInShape x y sh = false := by
  intro l
  induction l with
  | nil => simp [lastHit]
  | cons a rest ih =>
    rw [lastHit]
    cases hr : lastHit x y rest with
    | some p =>
      simp only [reduceCtorEq, false_iff]
      intro hall
      have : ∀ sh ∈ rest, isPointInShape x y sh = false := fun sh hsh => hall sh (by simp [hsh])
      rw [ih.mpr this] at hr
      exact absurd hr (by simp)
    | none =>
      by_cases hp : isPointInShape x y a = true
      · simp [if_pos hp, hp]
      · simp only [if_neg hp, Bool.not_eq_true] at hp ⊢
        constructor
        · intro _ sh hsh
          rcases List.mem_cons.mp hsh with h | h
          · rw [h]; exact hp
          · exact ih.mp hr sh h
        · intro _; trivial

/-- The indexed `some` is true exactly when some position satisfies the
predicate, the callback index being offset by the accumulator. -/
theorem someWithIndex_eq_true_iff (p : Nat → Shape → Bool) :
    ∀ (l : List Shape) (k : Nat), someWithIndex p k l = true ↔
      ∃ j : Fin l.length, p (k + j.1) (l.get j) = true := by
  intro l
  induction l with
  | nil => simp [someWithIndex]
  | cons a rest ih =>
    intro k
    rw [someWithIndex, Bool.or_eq_true, ih (k + 1)]
    constructor
    · rintro (h | ⟨j, hj⟩)
      · exact ⟨⟨0, by simp⟩, by simpa using h⟩
      · refine ⟨⟨j.1 + 1, by simpa using Nat.succ_lt_succ j.2⟩, ?_⟩
        have harith : k + 1 + j.1 = k + (j.1 + 1) := by omega
        rw [harith] at hj
        simpa using hj
    · rintro ⟨⟨j, hj⟩, hpj⟩
      cases j with
      | zero => exact Or.inl (by simpa using hpj)
      | succ j =>
        refine Or.inr ⟨⟨j, by simpa using Nat.lt_of_succ_lt_succ hj⟩, ?_⟩
        have harith : k + 1 + j = k + (j + 1) := by omega
        rw [harith]
        simpa using hpj

/-- The `stopDrawing` occupancy check holds exactly when a shape other than
the dragged one sits at the snapped cell center. -/
theorem stop_occupied_iff (l : List Shape) (i : Nat) (sx sy : ℚ) :
    someWithIndex
        (fun j t => decide (j ≠ i) && decide (t.x = sx) && decide (t.y = sy)) 0 l = true ↔
      ∃ j : Fin l.length, j.1 ≠ i ∧ (l.get j).x = sx ∧ (l.get j).y = sy := by
  rw [someWithIndex_eq_true_iff]
  constructor
  · rintro ⟨j, hj⟩
    simp only [Bool.and_eq_true, decide_eq_true_eq, Nat.zero_add] at hj
    exact ⟨j, hj.1.1, hj.1.2, hj.2⟩
  · rintro ⟨j, h1, h2, h3⟩
    refine ⟨j, ?_⟩
    simp only [Bool.and_eq_true, decide_eq_true_eq, Nat.zero_add]
    exact ⟨⟨h1, h2⟩, h3⟩

/-- The placement occupancy check holds exactly when some shape sits at the
snapped cell center. -/
theorem place_occupied_iff (l : List Shape) (a b : ℚ) :
    (l.any fun t => decide (t.x = a) && decide (t.y = b)) = true ↔
      ∃ t ∈ l, t.x = a ∧ t.y = b := by
  simp

/-- With a glyph tool and a hit, `startDrawing` starts a drag session on the
hit shape. -/
theorem startDrawing_hit (x y : ℚ) (s : EditorState) (i : Nat) (sh : Shape)
    (htool : ¬ s.selectedShape = .freehand) (hhit : lastHit x y s.shapes = some (i, sh)) :
    startDrawing x y s =
      { s with
        draggedShapeIndex := some i
        isDrawing := true
        originalShapePosition := some (sh.x, sh.y)
        dragOffset := (x - sh.x, y - sh.y) } := by
  unfold startDrawing
  rw [if_neg htool, hhit]

/-- With a glyph tool, no hit, and a free target cell, `startDrawing` appends
a new snapped shape. -/
theorem startDrawing_place (x y : ℚ) (s : EditorState)
    (htool : ¬ s.selectedShape = .freehand)
    (hmiss : ∀ sh ∈ s.shapes, isPointInShape x y sh = false)
    (hunocc : ¬ ∃ t ∈ s.shapes, t.x = snapToGrid x gridSize ∧ t.y = snapToGrid y gridSize) :
    startDrawing x y s =
      { s with
        shapes := s.shapes ++
          [{ type := s.selectedShape
             x := snapToGrid x gridSize
             y := snapToGrid y gridSize
             size := gridSize * 0.8
             color := s.brushColor }] } := by
  unfold startDrawing
  rw [if_neg htool, lastHit_none_iff.mpr hmiss]
  dsimp only
  have hocc : (s.shapes.any fun t =>
      decide (t.x = snapToGrid x gridSize) && decide (t.y = snapToGrid y gridSize)) = false := by
    cases hb : s.shapes.any fun t =>
        decide (t.x = snapToGrid x gridSize) && decide (t.y = snapToGrid y gridSize) with
    | false => rfl
    | true =>
      exact absurd ((place_occupied_iff s.shapes (snapToGrid x gridSize)
        (snapToGrid y gridSize)).mp hb) hunocc
  rw [hocc]
  simp

/-- With a glyph tool, no hit, and an occupied target cell, `startDrawing`
changes nothing at all. -/
theorem startDrawing_occupied (x y : ℚ) (s : EditorState)
    (htool : ¬ s.selectedShape = .freehand)
    (hmiss : ∀ sh ∈ s.shapes, isPointInShape x y sh = false)
    (hocc : ∃ t ∈ s.shapes, t.x = snapToGrid x gridSize ∧ t.y = snapToGrid y gridSize) :
    startDrawing x y s = s := by
  unfold startDrawing
  rw [if_neg htool, lastHit_none_iff.mpr hmiss]
  dsimp only
  rw [(place_occupied_iff s.shapes (snapToGrid x gridSize) (snapToGrid y gridSize)).mpr hocc]
  simp

/-- Position-distinctness through bare natural-number indices. -/
theorem distinctPos_iff (l : List Shape) :
    distinctPos l ↔ ∀ j k, (hj : j < l.length) → (hk : k < l.length) → j ≠ k →
      ((l.get ⟨j, hj⟩).x, (l.get ⟨j, hj⟩).y) ≠ ((l.get ⟨k, hk⟩).x, (l.get ⟨k, hk⟩).y) := by
  constructor
  · intro h j k hj hk hne
    exact h ⟨j, hj⟩ ⟨k, hk⟩ (by simpa [Fin.ext_iff] using hne)
  · intro h j k hne
    exact h j.1 k.1 j.2 k.2 (by simpa [Fin.ext_iff] using hne)

/-- The editor invariant behind cell exclusivity.  With no drag session all
shape positions are pairwise distinct; during a drag the dragged index is in
range, the pre-drag position is recorded, all shapes other than the dragged
one are pairwise distinct, and none of them sits at the recorded pre-drag
position. -/
def Inv (s : EditorState) : Prop :=
  (s.draggedShapeIndex = none → s.originalShapePosition = none ∧ distinctPos s.shapes) ∧
  (∀ i, s.draggedShapeIndex = some i →
    i < s.shapes.length ∧
    ∃ p : ℚ × ℚ, s.originalShapePosition = some p ∧
      (∀ j k, (hj : j < s.shapes.length) → (hk : k < s.shapes.length) →
        j ≠ i → k ≠ i → j ≠ k →
        ((s.shapes.get ⟨j, hj⟩).x, (s.shapes.get ⟨j, hj⟩).y) ≠
          ((s.shapes.get ⟨k, hk⟩).x, (s.shapes.get ⟨k, hk⟩).y)) ∧
      (∀ j, (hj : j < s.shapes.length) → j ≠ i →
        ((s.shapes.get ⟨j, hj⟩).x, (s.shapes.get ⟨j, hj⟩).y) ≠ p))

/-- The initial state satisfies the invariant. -/
theorem inv_init : Inv initState := by
  constructor
  · intro _
    exact ⟨rfl, fun j _ _ => absurd j.2 (by simp [initState])⟩
  · intro i hi
    exact absurd hi (by simp [initState])

/-- Updating the shape at index `i` preserves pairwise distinctness, provided
the other shapes were pairwise distinct and none of them sits at the new
shape's position. -/
theorem distinctPos_set (l : List Shape) (i : Nat) (v : Shape)
    (hE : ∀ j k, (hj : j < l.length) → (hk : k < l.length) → j ≠ i → k ≠ i → j ≠ k →
      ((l.get ⟨j, hj⟩).x, (l.get ⟨j, hj⟩).y) ≠ ((l.get ⟨k, hk⟩).x, (l.get ⟨k, hk⟩).y))
    (hv : ∀ j, (hj : j < l.length) → j ≠ i →
      ((l.get ⟨j, hj⟩).x, (l.get ⟨j, hj⟩).y) ≠ (v.x, v.y)) :
    distinctPos (l.set i v) := by
  rw [distinctPos_iff]
  have hget : ∀ m, (hm : m < (l.set i v).length) → (l.set i v).get ⟨m, hm⟩ =
      if m = i then v else l.get ⟨m, by simpa using hm⟩ := by
    intro m hm
    by_cases hmi : m = i
    · rw [if_pos hmi]
      simp only [List.get_eq_getElem]
      have hm' : i < (l.set i v).length := hmi ▸ hm
      calc (l.set i v)[m] = (l.set i v).get ⟨m, hm⟩ := rfl
        _ = (l.set i v).get ⟨i, hm'⟩ := by congr 1; exact Fin.ext hmi
        _ = v := List.getElem_set_self hm'
    · rw [if_neg hmi]
      simp only [List.get_eq_getElem]
      exact List.getElem_set_ne (fun h => hmi h.symm) hm
  intro j k hj hk hne
  rw [hget j hj, hget k hk]
  by_cases hji : j = i
  · rw [if_pos hji]
    have hki : ¬ k = i := fun h => hne (hji.trans h.symm)
    rw [if_neg hki]
    intro h
    exact hv k (by simpa using hk) hki h.symm
  · rw [if_neg hji]
    by_cases hki : k = i
    · rw [if_pos hki]
      intro h
      exact hv j (by simpa using hj) hji h
    · rw [if_neg hki]
      exact hE j k (by simpa using hj) (by simpa using hk) hji hki hne

/-- Every well-formed operation preserves the invariant. -/
theorem inv_applyOp {s : EditorState} (op : Op) (hInv : Inv s) (hwf : wfOk s op) :
    Inv (applyOp op s) := by
  obtain ⟨hNone, hSome⟩ := hInv
  cases op with
  | selectTool k =>
    exact ⟨hNone, hSome⟩
  | clear =>
    replace hwf : s.draggedShapeIndex = none := hwf
    show Inv (clearCanvas s)
    constructor
    · intro _
      refine ⟨(hNone hwf).1, ?_⟩
      intro j k hne
      exact absurd j.2 (by simp [clearCanvas])
    · intro i hi
      replace hi : s.draggedShapeIndex = some i := hi
      rw [hwf] at hi
      exact absurd hi (by simp)
  | undo =>
    replace hwf : s.draggedShapeIndex = none := hwf
    show Inv (undoLastShape s)
    by_cases hlen : s.shapes.length > 0
    · have heq : undoLastShape s = { s with shapes := s.shapes.dropLast } := by
        unfold undoLastShape
        rw [if_pos hlen]
      rw [heq]
      constructor
      · intro _
        refine ⟨(hNone hwf).1, ?_⟩
        rw [distinctPos_iff]
        intro j k hj hk hne
        show ((s.shapes.dropLast.get ⟨j, hj⟩).x, (s.shapes.dropLast.get ⟨j, hj⟩).y) ≠
          ((s.shapes.dropLast.get ⟨k, hk⟩).x, (s.shapes.dropLast.get ⟨k, hk⟩).y)
        have hj' : j < s.shapes.length := lt_of_lt_of_le hj (by
          rw [List.length_dropLast]; omega)
        have hk' : k < s.shapes.length := lt_of_lt_of_le hk (by
          rw [List.length_dropLast]; omega)
        have e1 : s.shapes.dropLast.get ⟨j, hj⟩ = s.shapes.get ⟨j, hj'⟩ := by
          simp [List.get_eq_getElem, List.getElem_dropLast]
        have e2 : s.shapes.dropLast.get ⟨k, hk⟩ = s.shapes.get ⟨k, hk'⟩ := by
          simp [List.get_eq_getElem, List.getElem_dropLast]
        rw [e1, e2]
        exact (distinctPos_iff s.shapes).mp (hNone hwf).2 j k hj' hk' hne
      · intro i hi
        replace hi : s.draggedShapeIndex = some i := hi
        rw [hwf] at hi
        exact absurd hi (by simp)
    · have heq : undoLastShape s = s := by
        unfold undoLastShape
        rw [if_neg hlen]
      rw [heq]
      exact ⟨hNone, hSome⟩
  | pointerUp =>
    show Inv (stopDrawing s)
    cases hidx : s.draggedShapeIndex with
    | none =>
      have heq : stopDrawing s =
          { s with
            isDrawing := false
            draggedShapeIndex := none
            originalShapePosition := none } := by
        unfold stopDrawing
        rw [hidx]
      rw [heq]
      constructor
      · intro _
        exact ⟨rfl, (hNone hidx).2⟩
      · intro i hi
        replace hi : (none : Option Nat) = some i := hi
        exact absurd hi (by simp)
    | some i =>
      obtain ⟨hlt, p, horig, hdistE, hdistP⟩ := hSome i hidx
      have hget : s.shapes.get? i = some (s.shapes.get ⟨i, hlt⟩) := List.get?_eq_get hlt
      have heq : stopDrawing s =
          { s with
            shapes := s.shapes.set i
              (if someWithIndex
                  (fun j t => decide (j ≠ i) &&
                    decide (t.x = snapToGrid (s.shapes.get ⟨i, hlt⟩).x gridSize) &&
                    decide (t.y = snapToGrid (s.shapes.get ⟨i, hlt⟩).y gridSize)) 0 s.shapes
               then { s.shapes.get ⟨i, hlt⟩ with x := p.1, y := p.2 }
               else { s.shapes.get ⟨i, hlt⟩ with
                      x := snapToGrid (s.shapes.get ⟨i, hlt⟩).x gridSize
                      y := snapToGrid (s.shapes.get ⟨i, hlt⟩).y gridSize })
            isDrawing := false
            draggedShapeIndex := none
            originalShapePosition := none } := by
        unfold stopDrawing
        rw [hidx, horig]
        dsimp only
        rw [hget]
      rw [heq]
      constructor
      · intro _
        refine ⟨rfl, ?_⟩
        cases hb : someWithIndex
            (fun j t => decide (j ≠ i) &&
              decide (t.x = snapToGrid (s.shapes.get ⟨i, hlt⟩).x gridSize) &&
              decide (t.y = snapToGrid (s.shapes.get ⟨i, hlt⟩).y gridSize)) 0 s.shapes with
        | true =>
          rw [if_pos rfl]
          refine distinctPos_set s.shapes i _ hdistE ?_
          intro j hj hji
          intro h
          exact hdistP j hj hji h
        | false =>
          rw [if_neg (by simp)]
          refine distinctPos_set s.shapes i _ hdistE ?_
          intro j hj hji
          intro h
          have : someWithIndex
              (fun j t => decide (j ≠ i) &&
                decide (t.x = snapToGrid (s.shapes.get ⟨i, hlt⟩).x gridSize) &&
                decide (t.y = snapToGrid (s.shapes.get ⟨i, hlt⟩).y gridSize)) 0 s.shapes
              = true := by
            refine (stop_occupied_iff s.shapes i _ _).mpr ⟨⟨j, hj⟩, hji, ?_, ?_⟩
            · exact congrArg Prod.fst h
            · exact congrArg Prod.snd h
          rw [this] at hb
          exact absurd hb (by simp)
      · intro i' hi'
        replace hi' : (none : Option Nat) = some i' := hi'
        exact absurd hi' (by simp)
  | pointerMove x y =>
    show Inv (draw x y s)
    by_cases hdraw : s.isDrawing = false
    · have heq : draw x y s = s := by
        unfold draw
        rw [if_pos hdraw]
      rw [heq]
      exact ⟨hNone, hSome⟩
    · cases hidx : s.draggedShapeIndex with
      | none =>
        by_cases htool : s.selectedShape = .freehand
        · have heq : draw x y s = { s with lastPosition := (x, y) } := by
            unfold draw
            rw [if_neg hdraw, hidx]
            dsimp only
            rw [if_pos htool]
          rw [heq]
          constructor
          · intro _
            exact hNone hidx
          · intro i hi
            replace hi : s.draggedShapeIndex = some i := hi
            rw [hidx] at hi
            exact absurd hi (by simp)
        · have heq : draw x y s = s := by
            unfold draw
            rw [if_neg hdraw, hidx]
            dsimp only
            rw [if_neg htool]
          rw [heq]
          exact ⟨hNone, hSome⟩
      | some i =>
        obtain ⟨hlt, p, horig, hdistE, hdistP⟩ := hSome i hidx
        have hget : s.shapes.get? i = some (s.shapes.get ⟨i, hlt⟩) := List.get?_eq_get hlt
        have heq : draw x y s =
            { s with
              shapes := s.shapes.set i
                { s.shapes.get ⟨i, hlt⟩ with
                  x := x - s.dragOffset.1
                  y := y - s.dragOffset.2 } } := by
          unfold draw
          rw [if_neg hdraw, hidx]
          dsimp only
          rw [hget]
        rw [heq]
        constructor
        · intro h
          replace h : s.draggedShapeIndex = none := h
          rw [hidx] at h
          exact absurd h (by simp)
        · intro i' hi'
          replace hi' : s.draggedShapeIndex = some i' := hi'
          rw [hidx] at hi'
          obtain rfl : i = i' := by simpa using hi'
          refine ⟨by simpa using hlt, p, horig, ?_, ?_⟩
          · intro j k hj hk hji hki hne
            simp only [List.length_set] at hj hk
            simp only [List.get_eq_getElem]
            rw [List.getElem_set_ne (fun h => hji h.symm),
              List.getElem_set_ne (fun h => hki h.symm)]
            exact (by
              have := hdistE j k (by simpa using hj) (by simpa using hk) hji hki hne
              simpa [List.get_eq_getElem] using this)
          · intro j hj hji
            simp only [List.length_set] at hj
            simp only [List.get_eq_getElem]
            rw [List.getElem_set_ne (fun h => hji h.symm)]
            exact (by
              have := hdistP j (by simpa using hj) hji
              simpa [List.get_eq_getElem] using this)
  | pointerDown x y =>
    replace hwf : s.draggedShapeIndex = none := hwf
    obtain ⟨horig, hdist⟩ := hNone hwf
    show Inv (startDrawing x y s)
    by_cases htool : s.selectedShape = .freehand
    · have heq : startDrawing x y s = { s with isDrawing := true, lastPosition := (x, y) } := by
        unfold startDrawing
        rw [if_pos htool]
      rw [heq]
      constructor
      · intro _
        exact ⟨horig, hdist⟩
      · intro i hi
        replace hi : s.draggedShapeIndex = some i := hi
        rw [hwf] at hi
        exact absurd hi (by simp)
    · cases hhit : lastHit x y s.shapes with
      | some q =>
        obtain ⟨i, sh⟩ := q
        obtain ⟨hlt, hgeteq⟩ := lastHit_some_spec hhit
        rw [startDrawing_hit x y s i sh htool hhit]
        constructor
        · intro h
          replace h : (some i : Option Nat) = none := h
          exact absurd h (by simp)
        · intro i' hi'
          replace hi' : (some i : Option Nat) = some i' := hi'
          obtain rfl : i = i' := by simpa using hi'
          refine ⟨hlt, (sh.x, sh.y), rfl, ?_, ?_⟩
          · intro j k hj hk hji hki hne
            exact (distinctPos_iff s.shapes).mp hdist j k hj hk hne
          · intro j hj hji
            have := (distinctPos_iff s.shapes).mp hdist j i hj hlt hji
            rw [hgeteq] at this
            exact this
      | none =>
        by_cases hocc : ∃ t ∈ s.shapes,
            t.x = snapToGrid x gridSize ∧ t.y = snapToGrid y gridSize
        · rw [startDrawing_occupied x y s htool (lastHit_none_iff.mp hhit) hocc]
          constructor
          · intro _
            exact ⟨horig, hdist⟩
          · intro i hi
            replace hi : s.draggedShapeIndex = some i := hi
            rw [hwf] at hi
            exact absurd hi (by simp)
        · rw [startDrawing_place x y s htool (lastHit_none_iff.mp hhit) hocc]
          constructor
          · intro _
            refine ⟨horig, ?_⟩
            rw [distinctPos_iff]
            intro j k hj hk hne
            simp only [List.length_append, List.length_singleton] at hj hk
            simp only [List.get_eq_getElem]
            push_neg at hocc
            by_cases hj' : j < s.shapes.length
            · by_cases hk' : k < s.shapes.length
              · rw [List.getElem_append_left hj', List.getElem_append_left hk']
                exact (by
                  have := (distinctPos_iff s.shapes).mp hdist j k hj' hk' hne
                  simpa [List.get_eq_getElem] using this)
              · have hkeq : k = s.shapes.length := by omega
                subst hkeq
                rw [List.getElem_append_left hj', List.getElem_concat_length]
                intro h
                exact hocc (s.shapes.get ⟨j, hj'⟩)
                  (by simp only [List.get_eq_getElem]; exact List.getElem_mem hj')
                  (by simpa [List.get_eq_getElem] using congrArg Prod.fst h)
                  (by simpa [List.get_eq_getElem] using congrArg Prod.snd h)
                rfl
            · have hjeq : j = s.shapes.length := by omega
              subst hjeq
              have hk' : k < s.shapes.length := by omega
              rw [List.getElem_append_left hk', List.getElem_concat_length]
              intro h
              exact hocc (s.shapes.get ⟨k, hk'⟩)
                (by simp only [List.get_eq_getElem]; exact List.getElem_mem hk')
                (by simpa [List.get_eq_getElem] using congrArg Prod.fst h.symm)
                (by simpa [List.get_eq_getElem] using congrArg Prod.snd h.symm)
              rfl
          · intro i hi
            replace hi : s.draggedShapeIndex = some i := hi
            rw [hwf] at hi
            exact absurd hi (by simp)

/-! ## Theorems -/

/-- **C4.** The snap function computes `floor(c / cellEdge) * cellEdge +
cellEdge / 2`, the center of the cell containing the coordinate; and with the
editor's cell edge 70, a glyph placement click at raw coordinates (73, 5) on
the empty canvas appends exactly one new shape, positioned at (105, 35). -/
theorem snapToGrid_formula_and_scenario :
    (∀ c g : ℚ, 0 < g → snapToGrid c g = (⌊c / g⌋ : ℚ) * g + g / 2) ∧
    (startDrawing 73 5 (selectTool .kul initState)).shapes =
      [{ type := .kul, x := 105, y := 35, size := 56, color := "#000000" }] := by
  refine ⟨fun _ _ _ => rfl, ?_⟩
  norm_num [startDrawing, selectTool, lastHit, snapToGrid, gridSize, initState]
  all_goals decide

/-- Witness for C4: the formula evaluated at coordinate 73, cell edge 70. -/
theorem snapToGrid_formula_witness :
    snapToGrid 73 70 = (⌊(73 : ℚ) / 70⌋ : ℚ) * 70 + 70 / 2 :=
  snapToGrid_formula_and_scenario.1 73 70 (by norm_num)

/-- **C5.** The snap function is idempotent, and its value is always a
cell-center coordinate: subtracting half a cell edge leaves an exact integer
multiple of the cell edge. -/
theorem snapToGrid_idempotent_center :
    ∀ c g : ℚ, 0 < g →
      snapToGrid (snapToGrid c g) g = snapToGrid c g ∧
      ∃ k : ℤ, snapToGrid c g - g / 2 = (k : ℚ) * g := by
  intro c g hg
  have hg0 : g ≠ 0 := ne_of_gt hg
  constructor
  · unfold snapToGrid
    have h1 : ((⌊c / g⌋ : ℚ) * g + g / 2) / g = (⌊c / g⌋ : ℚ) + 1 / 2 := by
      field_simp
      ring
    rw [h1, Int.floor_int_add]
    have h2 : ⌊(1 / 2 : ℚ)⌋ = 0 := by
      rw [Int.floor_eq_zero_iff]
      constructor <;> norm_num
    rw [h2, add_zero]
  · refine ⟨⌊c / g⌋, ?_⟩
    unfold snapToGrid
    ring

/-- Witness for C5: idempotence and centering at coordinate 73, cell edge 70. -/
theorem snapToGrid_idempotent_witness :
    snapToGrid (snapToGrid 73 70) 70 = snapToGrid 73 70 ∧
    ∃ k : ℤ, snapToGrid 73 70 - 70 / 2 = (k : ℚ) * 70 :=
  snapToGrid_idempotent_center 73 70 (by norm_num)

/-- **C6.** The hit test `isPointInShape` holds exactly on the closed
axis-aligned square of edge `shape.size` centered at the shape's position, and
fails at every point strictly outside it. -/
theorem isPointInShape_iff_square :
    ∀ (px py : ℚ) (sh : Shape),
      isPointInShape px py sh = true ↔
        |px - sh.x| ≤ sh.size / 2 ∧ |py - sh.y| ≤ sh.size / 2 := by
  intro px py sh
  simp only [isPointInShape, Bool.and_eq_true, decide_eq_true_eq, abs_le, ge_iff_le]
  constructor
  · rintro ⟨⟨⟨h1, h2⟩, h3⟩, h4⟩
    exact ⟨⟨by linarith, by linarith⟩, ⟨by linarith, by linarith⟩⟩
  · rintro ⟨⟨h1, h2⟩, h3, h4⟩
    exact ⟨⟨⟨by linarith, by linarith⟩, by linarith⟩, by linarith⟩

/-- `undoLastShape` iterated as many times as there are shapes empties the
sequence. -/
theorem undo_iterate_empty :
    ∀ (n : Nat) (s : EditorState), s.shapes.length = n →
      (undoLastShape^[n] s).shapes = [] := by
  intro n
  induction n with
  | zero =>
    intro s h
    exact List.length_eq_zero.mp h
  | succ n ih =>
    intro s h
    rw [Function.iterate_succ_apply]
    apply ih
    have hpos : s.shapes.length > 0 := by omega
    unfold undoLastShape
    rw [if_pos hpos]
    show s.shapes.dropLast.length = n
    rw [List.length_dropLast]
    omega

/-- **C7.** `undo` on an empty shape sequence leaves the state unchanged; on a
non-empty sequence it removes exactly the last-appended shape, leaving all
earlier shapes unchanged; and `undo` iterated N times on a sequence of N
shapes empties it. -/
theorem undoLastShape_spec :
    ∀ (s : EditorState) (n : Nat),
      (s.shapes = [] → undoLastShape s = s) ∧
      (∀ h : s.shapes ≠ [],
        (undoLastShape s).shapes ++ [s.shapes.getLast h] = s.shapes) ∧
      (s.shapes.length = n → (undoLastShape^[n] s).shapes = []) := by
  intro s n
  refine ⟨?_, ?_, undo_iterate_empty n s⟩
  · intro h
    simp [undoLastShape, h]
  · intro h
    have hpos : s.shapes.length > 0 := List.length_pos.mpr h
    simp only [undoLastShape, if_pos hpos]
    exact List.dropLast_append_getLast h

/-- Witness for C7: undoing twice empties a two-shape sequence, and undoing
the initial (empty) state changes nothing. -/
theorem undoLastShape_witness :
    (undoLastShape^[2]
      { initState with
        shapes := [{ type := .kul, x := 35, y := 35, size := 56, color := "#000000" },
                   { type := .lu, x := 105, y := 35, size := 56, color := "#FF0000" }] }).shapes
      = [] ∧
    undoLastShape initState = initState := by
  constructor
  · exact (undoLastShape_spec
      { initState with
        shapes := [{ type := .kul, x := 35, y := 35, size := 56, color := "#000000" },
                   { type := .lu, x := 105, y := 35, size := 56, color := "#FF0000" }] } 2).2.2 rfl
  · exact (undoLastShape_spec initState 0).1 rfl

/-- **C8.** When the submission fails — the renderer produced no blob, the
fetch threw a network error, or the response had a non-success status — the
evaluation status moves from loading to error, the submit control (disabled
exactly while loading) is enabled again, and the shape sequence is untouched
by the whole submission. -/
theorem evaluateKolam_failure_spec :
    ∀ (s : EditorState) (blob : Option String) (outcome : FetchOutcome),
      (blob = none ∨ outcome = .networkError ∨
        ∃ st, outcome = .response st ∧ responseOk st = false) →
      (evaluateKolamStart s).evaluationStatus = .loading ∧
      submitDisabled (evaluateKolamStart s) = true ∧
      (evaluateKolam s blob outcome).evaluationStatus = .error ∧
      submitDisabled (evaluateKolam s blob outcome) = false ∧
      (evaluateKolam s blob outcome).shapes = s.shapes ∧
      (∀ s' : EditorState, submitDisabled s' = true ↔ s'.evaluationStatus = .loading) := by
  intro s blob outcome hfail
  have hiff : ∀ s' : EditorState, submitDisabled s' = true ↔ s'.evaluationStatus = .loading := by
    intro s'
    simp [submitDisabled]
  rcases hfail with h | h | ⟨st, h, hok⟩
  · subst h
    refine ⟨rfl, by simp [submitDisabled, evaluateKolamStart], ?_, ?_, ?_, hiff⟩ <;>
      simp [evaluateKolam, evaluateKolamComplete, evaluateKolamStart, submitDisabled]
  · subst h
    cases blob with
    | none =>
      refine ⟨rfl, by simp [submitDisabled, evaluateKolamStart], ?_, ?_, ?_, hiff⟩ <;>
        simp [evaluateKolam, evaluateKolamComplete, evaluateKolamStart, submitDisabled]
    | some b =>
      refine ⟨rfl, by simp [submitDisabled, evaluateKolamStart], ?_, ?_, ?_, hiff⟩ <;>
        simp [evaluateKolam, evaluateKolamComplete, evaluateKolamStart, submitDisabled]
  · subst h
    cases blob with
    | none =>
      refine ⟨rfl, by simp [submitDisabled, evaluateKolamStart], ?_, ?_, ?_, hiff⟩ <;>
        simp [evaluateKolam, evaluateKolamComplete, evaluateKolamStart, submitDisabled]
    | some b =>
      refine ⟨rfl, by simp [submitDisabled, evaluateKolamStart], ?_, ?_, ?_, hiff⟩ <;>
        simp [evaluateKolam, evaluateKolamComplete, evaluateKolamStart, submitDisabled, hok]

/-- **C2.** Releasing the pointer with an active drag session: if another
shape occupies the snapped cell of the dragged shape's current position, the
dragged shape returns to its exact pre-drag position; otherwise it commits to
the snapped cell center.  In both cases the shape count is unchanged, every
other shape is unchanged, and the drag session is cleared. -/
theorem stopDrawing_release_spec :
    ∀ (s : EditorState) (i : Nat) (sh : Shape) (p : ℚ × ℚ),
      s.draggedShapeIndex = some i →
      s.originalShapePosition = some p →
      s.shapes.get? i = some sh →
      ((∃ j : Fin s.shapes.length, j.1 ≠ i ∧
          (s.shapes.get j).x = snapToGrid sh.x gridSize ∧
          (s.shapes.get j).y = snapToGrid sh.y gridSize) →
        (stopDrawing s).shapes.get? i = some { sh with x := p.1, y := p.2 }) ∧
      ((¬ ∃ j : Fin s.shapes.length, j.1 ≠ i ∧
          (s.shapes.get j).x = snapToGrid sh.x gridSize ∧
          (s.shapes.get j).y = snapToGrid sh.y gridSize) →
        (stopDrawing s).shapes.get? i =
          some { sh with x := snapToGrid sh.x gridSize, y := snapToGrid sh.y gridSize }) ∧
      (stopDrawing s).shapes.length = s.shapes.length ∧
      (∀ j : Nat, j ≠ i → (stopDrawing s).shapes.get? j = s.shapes.get? j) ∧
      (stopDrawing s).draggedShapeIndex = none ∧
      (stopDrawing s).originalShapePosition = none := by
  intro s i sh p hidx horig hget
  have hlen : i < s.shapes.length := List.get?_eq_some.mp hget |>.choose
  have hstop : stopDrawing s =
      { s with
        shapes := s.shapes.set i
          (if someWithIndex
              (fun j t => decide (j ≠ i) && decide (t.x = snapToGrid sh.x gridSize) &&
                decide (t.y = snapToGrid sh.y gridSize)) 0 s.shapes
           then { sh with x := p.1, y := p.2 }
           else { sh with x := snapToGrid sh.x gridSize, y := snapToGrid sh.y gridSize })
        isDrawing := false
        draggedShapeIndex := none
        originalShapePosition := none } := by
    unfold stopDrawing
    rw [hidx, horig]
    dsimp only
    rw [hget]
  rw [hstop]
  refine ⟨?_, ?_, by simp, ?_, rfl, rfl⟩
  · intro hocc
    have hocc' := (stop_occupied_iff s.shapes i (snapToGrid sh.x gridSize)
      (snapToGrid sh.y gridSize)).mpr hocc
    rw [hocc']
    rw [List.get?_eq_getElem?]
    rw [List.getElem?_set_self (by simpa using hlen)]
    simp
  · intro hocc
    have hocc' : someWithIndex
        (fun j t => decide (j ≠ i) && decide (t.x = snapToGrid sh.x gridSize) &&
          decide (t.y = snapToGrid sh.y gridSize)) 0 s.shapes = false := by
      cases hb : someWithIndex
        (fun j t => decide (j ≠ i) && decide (t.x = snapToGrid sh.x gridSize) &&
          decide (t.y = snapToGrid sh.y gridSize)) 0 s.shapes with
      | false => rfl
      | true => exact absurd ((stop_occupied_iff s.shapes i (snapToGrid sh.x gridSize)
          (snapToGrid sh.y gridSize)).mp hb) hocc
    rw [hocc']
    rw [List.get?_eq_getElem?]
    rw [List.getElem?_set_self (by simpa using hlen)]
    simp
  · intro j hj
    rw [List.get?_eq_getElem?, List.get?_eq_getElem?]
    exact List.getElem?_set_ne (by omega)

/-- Witness for C2: a concrete drag of a shape from (35, 35) released at
(100, 100) while another shape occupies the (105, 105) cell center reverts the
dragged shape to (35, 35) and clears the session. -/
theorem stopDrawing_release_witness :
    (stopDrawing
      { initState with
        selectedShape := .kul
        shapes := [{ type := .kul, x := 100, y := 100, size := 56, color := "#000000" },
                   { type := .kul, x := 105, y := 105, size := 56, color := "#000000" }]
        isDrawing := true
        draggedShapeIndex := some 0
        dragOffset := (0, 0)
        originalShapePosition := some (35, 35) }).shapes.get? 0 =
      some { type := .kul, x := 35, y := 35, size := 56, color := "#000000" } ∧
    (stopDrawing
      { initState with
        selectedShape := .kul
        shapes := [{ type := .kul, x := 100, y := 100, size := 56, color := "#000000" },
                   { type := .kul, x := 105, y := 105, size := 56, color := "#000000" }]
        isDrawing := true
        draggedShapeIndex := some 0
        dragOffset := (0, 0)
        originalShapePosition := some (35, 35) }).draggedShapeIndex = none := by
  have h := stopDrawing_release_spec
    { initState with
      selectedShape := .kul
      shapes := [{ type := .kul, x := 100, y := 100, size := 56, color := "#000000" },
                 { type := .kul, x := 105, y := 105, size := 56, color := "#000000" }]
      isDrawing := true
      draggedShapeIndex := some 0
      dragOffset := (0, 0)
      originalShapePosition := some (35, 35) }
    0 { type := .kul, x := 100, y := 100, size := 56, color := "#000000" } (35, 35)
    rfl rfl rfl
  refine ⟨h.1 ⟨⟨1, by norm_num⟩, by norm_num, ?_, ?_⟩, h.2.2.2.2.1⟩ <;>
    norm_num [snapToGrid, gridSize]

/-- A state whose target cell is already occupied by a shape that does not
contain the pointer coordinates used in the C3 counterexample. -/
def occupiedCellState : EditorState :=
  { initState with
    selectedShape := .kul
    shapes := [{ type := .kul, x := 35, y := 35, size := 56, color := "#000000" }] }

/-- **C3 (counterexample).** The claim fails as stated: with a glyph tool and
no shape under the pointer, two successive placements into the same snapped
cell need not increase the shape count by exactly 1 — when the cell is
already occupied (by a shape the pointer is not over), both placements are
rejected and the count increases by 0. -/
theorem doublePlace_counterexample :
    ¬ occupiedCellState.selectedShape = .freehand ∧
    (∀ sh ∈ occupiedCellState.shapes, isPointInShape 1 1 sh = false) ∧
    (∀ sh ∈ occupiedCellState.shapes, isPointInShape 2 2 sh = false) ∧
    snapToGrid 2 gridSize = snapToGrid 1 gridSize ∧
    (startDrawing 2 2 (startDrawing 1 1 occupiedCellState)).shapes.length ≠
      occupiedCellState.shapes.length + 1 := by
  have e1 : startDrawing 1 1 occupiedCellState = occupiedCellState := by
    norm_num [startDrawing, lastHit, isPointInShape, snapToGrid, gridSize, occupiedCellState,
      initState]
    all_goals decide
  have e2 : startDrawing 2 2 occupiedCellState = occupiedCellState := by
    norm_num [startDrawing, lastHit, isPointInShape, snapToGrid, gridSize, occupiedCellState,
      initState]
    all_goals decide
  refine ⟨by decide, ?_, ?_, by norm_num [snapToGrid, gridSize], ?_⟩
  · intro sh hsh
    simp only [occupiedCellState, List.mem_singleton] at hsh
    rw [hsh]
    norm_num [isPointInShape]
  · intro sh hsh
    simp only [occupiedCellState, List.mem_singleton] at hsh
    rw [hsh]
    norm_num [isPointInShape]
  · rw [e1, e2]
    norm_num [occupiedCellState]

/-- **C3 (amended).** With a glyph tool selected, a pointer position over no
shape, and the target snapped cell unoccupied, a placement appends exactly one
new shape of the active kind at the cell center with size 0.8 × the cell edge
and the current brush color; a second placement whose raw coordinates map to
the same snapped cell and whose pointer is over no shape (in particular, not
over the newly placed one) is a complete no-op, so the count grows by exactly
1, not 2. -/
theorem doublePlace_spec :
    ∀ (s : EditorState) (x1 y1 x2 y2 : ℚ),
      ¬ s.selectedShape = .freehand →
      (∀ sh ∈ s.shapes, isPointInShape x1 y1 sh = false) →
      snapToGrid x2 gridSize = snapToGrid x1 gridSize →
      snapToGrid y2 gridSize = snapToGrid y1 gridSize →
      (¬ ∃ t ∈ s.shapes, t.x = snapToGrid x1 gridSize ∧ t.y = snapToGrid y1 gridSize) →
      (∀ sh ∈ (startDrawing x1 y1 s).shapes, isPointInShape x2 y2 sh = false) →
      (startDrawing x1 y1 s).shapes = s.shapes ++
        [{ type := s.selectedShape
           x := snapToGrid x1 gridSize
           y := snapToGrid y1 gridSize
           size := gridSize * 0.8
           color := s.brushColor }] ∧
      startDrawing x2 y2 (startDrawing x1 y1 s) = startDrawing x1 y1 s ∧
      (startDrawing x2 y2 (startDrawing x1 y1 s)).shapes.length = s.shapes.length + 1 := by
  intro s x1 y1 x2 y2 htool hmiss1 hsx hsy hunocc hmiss2
  have h1 := startDrawing_place x1 y1 s htool hmiss1 hunocc
  have hshapes : (startDrawing x1 y1 s).shapes = s.shapes ++
      [{ type := s.selectedShape
         x := snapToGrid x1 gridSize
         y := snapToGrid y1 gridSize
         size := gridSize * 0.8
         color := s.brushColor }] := by rw [h1]
  have htool2 : ¬ (startDrawing x1 y1 s).selectedShape = .freehand := by
    rw [h1]; exact htool
  have hocc2 : ∃ t ∈ (startDrawing x1 y1 s).shapes,
      t.x = snapToGrid x2 gridSize ∧ t.y = snapToGrid y2 gridSize := by
    refine ⟨{ type := s.selectedShape
              x := snapToGrid x1 gridSize
              y := snapToGrid y1 gridSize
              size := gridSize * 0.8
              color := s.brushColor }, ?_, by simpa using hsx.symm, by simpa using hsy.symm⟩
    rw [hshapes]
    simp
  have h2 := startDrawing_occupied x2 y2 (startDrawing x1 y1 s) htool2 hmiss2 hocc2
  refine ⟨hshapes, h2, ?_⟩
  rw [h2, hshapes]
  simp

/-- Witness for C3 (amended): two clicks at (73, 5) and (73, 6) — same
snapped cell (105, 35) — on the empty canvas with the kul tool yield exactly
one shape. -/
theorem doublePlace_witness :
    startDrawing 73 6 (startDrawing 73 5 { initState with selectedShape := .kul }) =
      startDrawing 73 5 { initState with selectedShape := .kul } ∧
    (startDrawing 73 6 (startDrawing 73 5 { initState with selectedShape := .kul })).shapes.length
      = 1 := by
  have hplaced : (startDrawing 73 5 { initState with selectedShape := .kul }).shapes =
      [{ type := .kul, x := 105, y := 35, size := 56, color := "#000000" }] := by
    norm_num [startDrawing, lastHit, snapToGrid, gridSize, initState]
    all_goals decide
  have h := doublePlace_spec { initState with selectedShape := .kul } 73 5 73 6
    (by decide)
    (by simp [initState])
    (by norm_num [snapToGrid, gridSize])
    (by norm_num [snapToGrid, gridSize])
    (by simp [initState])
    (by
      intro sh hsh
      rw [hplaced] at hsh
      simp only [List.mem_singleton] at hsh
      rw [hsh]
      norm_num [isPointInShape])
  exact ⟨h.2.1, by rw [h.2.2]; norm_num [initState]⟩

/-- The operation sequence behind the C1 counterexample: place a shape at the
(35, 35) cell center, grab it, drag it to (100, 100), then — while the drag
session is still open — place a second shape back into the vacated origin
cell and a third one into the (105, 105) cell, and finally release. -/
def conflictOps : List Op :=
  [.selectTool .kul, .pointerDown 35 35, .pointerDown 35 35, .pointerMove 100 100,
   .pointerDown 35 35, .pointerDown 135 71, .pointerUp]

/-- The glyph that sits at the (35, 35) cell center in the counterexample. -/
def cexShapeP : Shape := { type := .kul, x := 35, y := 35, size := 56, color := "#000000" }

/-- The dragged glyph after the pointer move to (100, 100). -/
def cexShapeDragged : Shape := { cexShapeP with x := 100, y := 100 }

/-- The glyph placed at the (105, 105) cell center during the drag. -/
def cexShapeB : Shape := { type := .kul, x := 105, y := 105, size := 56, color := "#000000" }

/-- State after selecting the kul tool. -/
def cexS0 : EditorState := { initState with selectedShape := .kul }

/-- State after the first placement. -/
def cexS1 : EditorState := { cexS0 with shapes := [cexShapeP] }

/-- State after grabbing the placed shape. -/
def cexS2 : EditorState :=
  { cexS1 with
    draggedShapeIndex := some 0
    isDrawing := true
    originalShapePosition := some (35, 35)
    dragOffset := (0, 0) }

/-- State after dragging to (100, 100). -/
def cexS3 : EditorState := { cexS2 with shapes := [cexShapeDragged] }

/-- State after placing into the vacated origin cell mid-drag. -/
def cexS4 : EditorState := { cexS3 with shapes := [cexShapeDragged, cexShapeP] }

/-- State after placing into the (105, 105) cell mid-drag. -/
def cexS5 : EditorState := { cexS4 with shapes := [cexShapeDragged, cexShapeP, cexShapeB] }

/-- Final state: the release finds (105, 105) occupied and reverts the dragged
shape onto the shape now occupying its origin cell. -/
def cexFinal : EditorState :=
  { cexS5 with
    shapes := [cexShapeP, cexShapeP, cexShapeB]
    isDrawing := false
    draggedShapeIndex := none
    originalShapePosition := none }

/-- **C1 (counterexample).** Read over arbitrary sequences of the editor
operations, the at-most-one-shape-per-cell claim is false: a pointer-down
placement arriving while a drag session is still active can fill the dragged
shape's origin cell, and a conflicting release then reverts the dragged shape
on top of it — the final state has no drag session active and two distinct
shapes both at (35, 35). -/
theorem restCellUnique_counterexample :
    (applyOps conflictOps initState).draggedShapeIndex = none ∧
    ¬ distinctPos (applyOps conflictOps initState).shapes := by
  have e0 : selectTool .kul initState = cexS0 := rfl
  have e1 : startDrawing 35 35 cexS0 = cexS1 := by
    norm_num [startDrawing, lastHit, isPointInShape, snapToGrid, gridSize, cexS0, cexS1,
      cexShapeP, initState]
    all_goals decide
  have e2 : startDrawing 35 35 cexS1 = cexS2 := by
    norm_num [startDrawing, lastHit, isPointInShape, snapToGrid, gridSize, cexS0, cexS1, cexS2,
      cexShapeP, initState]
    all_goals decide
  have e3 : draw 100 100 cexS2 = cexS3 := by
    norm_num [draw, cexS0, cexS1, cexS2, cexS3, cexShapeP, cexShapeDragged, initState]
    all_goals decide
  have e4 : startDrawing 35 35 cexS3 = cexS4 := by
    norm_num [startDrawing, lastHit, isPointInShape, snapToGrid, gridSize, cexS0, cexS1, cexS2,
      cexS3, cexS4, cexShapeP, cexShapeDragged, initState]
    all_goals decide
  have e5 : startDrawing 135 71 cexS4 = cexS5 := by
    norm_num [startDrawing, lastHit, isPointInShape, snapToGrid, gridSize, cexS0, cexS1, cexS2,
      cexS3, cexS4, cexS5, cexShapeP, cexShapeDragged, cexShapeB, initState]
    all_goals decide
  have e6 : stopDrawing cexS5 = cexFinal := by
    norm_num [stopDrawing, someWithIndex, snapToGrid, gridSize, cexS0, cexS1, cexS2, cexS3,
      cexS4, cexS5, cexFinal, cexShapeP, cexShapeDragged, cexShapeB, initState]
    all_goals decide
  have hfin : applyOps conflictOps initState = cexFinal := by
    show stopDrawing (startDrawing 135 71 (startDrawing 35 35 (draw 100 100
      (startDrawing 35 35 (startDrawing 35 35 (selectTool .kul initState)))))) = cexFinal
    rw [e0, e1, e2, e3, e4, e5, e6]
  rw [hfin]
  refine ⟨rfl, ?_⟩
  intro hd
  exact hd ⟨0, by decide⟩ ⟨1, by decide⟩ (by decide) rfl

/-- **C1 (amended).** In every state reachable from the initial state by a
well-formed event sequence — pointer-down, undo and clear arriving only while
no drag session is active, as the browser's event model guarantees — whenever
no drag session is active, no two distinct shapes share a position: at most
one shape occupies a given snapped grid cell at rest. -/
theorem restCellUnique_of_wfReachable :
    ∀ s : EditorState, WfReachable s → s.draggedShapeIndex = none →
      distinctPos s.shapes := by
  have hinv : ∀ s : EditorState, WfReachable s → Inv s := by
    intro s h
    induction h with
    | init => exact inv_init
    | step op hreach hwf ih => exact inv_applyOp op ih hwf
  intro s hr hnone
  exact ((hinv s hr).1 hnone).2

/-- Witness for C1 (amended): the initial state. -/
theorem restCellUnique_witness : distinctPos initState.shapes :=
  restCellUnique_of_wfReachable initState WfReachable.init rfl

/-- **C9 (counterexample).** "Exactly one of {drag session, freehand stroke}
is active" is false: in the initial state — reachable by the empty sequence —
neither is active. -/
theorem sessionExclusive_counterexample :
    WfReachable initState ∧
    ¬ ((dragSessionActive initState ∧ ¬ freehandStrokeActive initState) ∨
       (¬ dragSessionActive initState ∧ freehandStrokeActive initState)) := by
  refine ⟨WfReachable.init, ?_⟩
  rintro (⟨hd, _⟩ | ⟨_, hs⟩)
  · exact hd rfl
  · exact absurd hs.1 (by decide)

/-- **C9 (amended).** At most one of {drag session, freehand stroke} is
active in any reachable editor state; both may be inactive (as initially). -/
theorem sessionExclusive_atMostOne :
    ∀ s : EditorState, WfReachable s →
      ¬ (dragSessionActive s ∧ freehandStrokeActive s) := by
  rintro s _ ⟨hd, hs⟩
  exact hd hs.2.1

/-- Witness for C9 (amended): the initial state. -/
theorem sessionExclusive_witness :
    ¬ (dragSessionActive initState ∧ freehandStrokeActive initState) :=
  sessionExclusive_atMostOne initState WfReachable.init

/-- One editor operation never puts a freehand shape into the sequence. -/
theorem shapeTypes_applyOp {s : EditorState} (op : Op)
    (h : ∀ sh ∈ s.shapes, sh.type = .kul ∨ sh.type = .lu) :
    ∀ sh ∈ (applyOp op s).shapes, sh.type = .kul ∨ sh.type = .lu := by
  cases op with
  | selectTool k => exact h
  | clear =>
    intro sh hsh
    replace hsh : sh ∈ ([] : List Shape) := hsh
    simp at hsh
  | undo =>
    intro sh hsh
    show sh.type = .kul ∨ sh.type = .lu
    revert hsh
    show sh ∈ (undoLastShape s).shapes → _
    unfold undoLastShape
    split
    · intro hsh
      exact h sh (List.dropLast_subset s.shapes hsh)
    · intro hsh
      exact h sh hsh
  | pointerDown x y =>
    intro sh hsh
    replace hsh : sh ∈ (startDrawing x y s).shapes := hsh
    by_cases htool : s.selectedShape = .freehand
    · have heq : startDrawing x y s = { s with isDrawing := true, lastPosition := (x, y) } := by
        unfold startDrawing
        rw [if_pos htool]
      rw [heq] at hsh
      exact h sh hsh
    · cases hhit : lastHit x y s.shapes with
      | some q =>
        obtain ⟨i, t⟩ := q
        rw [startDrawing_hit x y s i t htool hhit] at hsh
        exact h sh hsh
      | none =>
        by_cases hocc : ∃ u ∈ s.shapes,
            u.x = snapToGrid x gridSize ∧ u.y = snapToGrid y gridSize
        · rw [startDrawing_occupied x y s htool (lastHit_none_iff.mp hhit) hocc] at hsh
          exact h sh hsh
        · rw [startDrawing_place x y s htool (lastHit_none_iff.mp hhit) hocc] at hsh
          replace hsh : sh ∈ s.shapes ++
            [{ type := s.selectedShape
               x := snapToGrid x gridSize
               y := snapToGrid y gridSize
               size := gridSize * 0.8
               color := s.brushColor }] := hsh
          rcases List.mem_append.mp hsh with hold | hnew
          · exact h sh hold
          · have htype : sh.type = s.selectedShape := by
              simp only [List.mem_singleton] at hnew
              rw [hnew]
            rw [htype]
            cases hsel : s.selectedShape with
            | kul => exact Or.inl rfl
            | lu => exact Or.inr rfl
            | freehand => exact absurd hsel htool
  | pointerMove x y =>
    intro sh hsh
    revert hsh
    show sh ∈ (draw x y s).shapes → _
    unfold draw
    split
    · intro hsh
      exact h sh hsh
    · split
      · next i hidx =>
        split
        · next t hget =>
          intro hsh
          rcases List.mem_or_eq_of_mem_set hsh with hold | hnew
          · exact h sh hold
          · have : sh.type = t.type := by rw [hnew]
            rw [this]
            exact h t (List.get?_mem hget)
        · intro hsh
          exact h sh hsh
      · split
        · intro hsh
          exact h sh hsh
        · intro hsh
          exact h sh hsh
  | pointerUp =>
    intro sh hsh
    revert hsh
    show sh ∈ (stopDrawing s).shapes → _
    unfold stopDrawing
    split
    · next i orig =>
      split
      · next t hget =>
        intro hsh
        rcases List.mem_or_eq_of_mem_set hsh with hold | hnew
        · exact h sh hold
        · have htt : sh.type = t.type := by
            rw [hnew]
            split <;> rfl
          rw [htt]
          exact h t (List.get?_mem hget)
      · intro hsh
        exact h sh hsh
    · intro hsh
      exact h sh hsh

/-- `drawShape` never emits a freehand draw command. -/
theorem drawShape_no_freehand (x y sz : ℚ) (c : String) :
    ∀ sh : Shape, DrawCmd.svgShape .freehand x y sz c ∉ drawShape sh := by
  intro sh hmem
  unfold drawShape at hmem
  split at hmem <;> simp at hmem

/-- **C10.** In every reachable state every shape in the sequence is a glyph
(kul or lu), never freehand: a pointer-down with the freehand tool never
appends to the shape sequence, and a full redraw never emits a draw command
for a freehand shape — freehand strokes live only in canvas pixels, so undo
and redraw neither remove, restore, nor redraw them through the shape
sequence. -/
theorem noFreehandShape_spec :
    ∀ s : EditorState, WfReachable s →
      (∀ sh ∈ s.shapes, sh.type = .kul ∨ sh.type = .lu) ∧
      (∀ x y : ℚ, s.selectedShape = .freehand → (startDrawing x y s).shapes = s.shapes) ∧
      (∀ (x y sz : ℚ) (c : String),
        DrawCmd.svgShape .freehand x y sz c ∉ redrawCanvas s) := by
  intro s hr
  refine ⟨?_, ?_, ?_⟩
  · induction hr with
    | init => simp [initState]
    | step op hreach hwf ih => exact shapeTypes_applyOp op ih
  · intro x y htool
    unfold startDrawing
    rw [if_pos htool]
  · intro x y sz c hmem
    unfold redrawCanvas at hmem
    simp only [List.mem_append] at hmem
    rcases hmem with (((h1 | h2) | h3) | h4) | h5
    · simp at h1
    · split at h2 <;> simp at h2
    · split at h3 <;> simp at h3
    · rcases List.mem_flatten.mp h4 with ⟨l, hl, hcl⟩
      rcases List.mem_filterMap.mp hl with ⟨q, hq, heq⟩
      split at heq
      · exact absurd heq (by simp)
      · have hleq : l = drawShape q.2 := by
          simpa using heq.symm
        rw [hleq] at hcl
        exact drawShape_no_freehand x y sz c q.2 hcl
    · split at h5
      · split at h5
        · exact drawShape_no_freehand x y sz c _ h5
        · simp at h5
      · simp at h5

/-- Witness for C10: the initial state, with the placement probe at (10, 10)
and a concrete freehand draw command. -/
theorem noFreehandShape_witness :
    (∀ sh ∈ initState.shapes, sh.type = .kul ∨ sh.type = .lu) ∧
    (startDrawing 10 10 initState).shapes = initState.shapes ∧
    DrawCmd.svgShape .freehand 35 35 56 "#000000" ∉ redrawCanvas initState := by
  have h := noFreehandShape_spec initState WfReachable.init
  exact ⟨h.1, h.2.1 10 10 rfl, h.2.2 35 35 56 "#000000"⟩

/-- Witness for C8: an HTTP 500 response on the initial state ends in error
status with the submit control enabled. -/
theorem evaluateKolam_failure_witness :
    (evaluateKolam initState (some "kolam.png") (.response 500)).evaluationStatus = .error ∧
    submitDisabled (evaluateKolam initState (some "kolam.png") (.response 500)) = false ∧
    (evaluateKolam initState (some "kolam.png") (.response 500)).shapes = initState.shapes := by
  have h := evaluateKolam_failure_spec initState (some "kolam.png") (.response 500)
    (Or.inr (Or.inr ⟨500, rfl, by decide⟩))
  exact ⟨h.2.2.1, h.2.2.2.1, h.2.2.2.2.1⟩

end KoLLaM
